import Mathlib

/-!
Shallow embedding of the Schrödinger-equation solver
(`src/PotentialsNew.py` and `src/HMatNew.py`).

Python floats are modelled by rationals (`ℚ`); numpy arrays by `List ℚ`.
Python code that can raise is modelled in `Except PyErr`; Python's `None`
is modelled by `Option.none`.  The one place where IEEE non-finite values
are observable (the Coulomb potential dividing by zero, claim C9) uses a
dedicated `PyFloat` type with explicit infinities.
-/

/-- Errors the embedded Python code can raise, together with the error
kinds named by the specification's taxonomy (`invalidGrid`,
`shapeMismatch`, `unimplementedCapability`) so that statements can compare
what the code actually raises with what the spec prescribes. -/
inductive PyErr where
  /-- Python `IndexError` from sequence indexing out of bounds. -/
  | indexError
  /-- numpy `ValueError` (e.g. broadcasting arrays of incompatible shapes). -/
  | valueError
  /-- Python `AssertionError` from a failed `assert` statement. -/
  | assertionError
  /-- Python `TypeError` (e.g. arithmetic on `None`). -/
  | typeError
  /-- The spec's "invalid grid" error (never raised by the code). -/
  | invalidGrid
  /-- The spec's "shape mismatch" error (never raised by the code). -/
  | shapeMismatch
  /-- The spec's "unimplemented capability" error (never raised by the code). -/
  | unimplementedCapability
  deriving DecidableEq, Repr

/-- `xs[i]` for a Python sequence: the element, or `IndexError` when out of
bounds (the sources never use negative indices). -/
def pyIndex (xs : List ℚ) (i : Nat) : Except PyErr ℚ :=
  match xs.get? i with
  | some v => Except.ok v
  | none => Except.error PyErr.indexError

/-- numpy elementwise addition of two 1-D arrays with broadcasting: equal
lengths add elementwise, a length-1 array broadcasts against the other,
anything else raises `ValueError`. -/
def npAdd (a b : List ℚ) : Except PyErr (List ℚ) :=
  if a.length = b.length then Except.ok (List.zipWith (· + ·) a b)
  else if a.length = 1 then Except.ok (b.map (fun x => a.headD 0 + x))
  else if b.length = 1 then Except.ok (a.map (fun x => x + b.headD 0))
  else Except.error PyErr.valueError

/-- `np.isclose(a, 0.0)` with numpy's defaults `rtol=1e-5`, `atol=1e-8`:
`|a - 0| ≤ atol + rtol * |0|`, i.e. `|a| ≤ 1e-8`. -/
def npIsCloseZero (a : ℚ) : Bool :=
  decide (|a| ≤ 1 / 100000000)

/-- The `Potential` capability contract of `PotentialsNew.py`: a method
`GetPotential` mapping a grid to a value array and a method
`GroundStateEnergy`.  A Python method may raise (`Except`) or return
`None` (`Option.none`). -/
structure Potential where
  GetPotential : List ℚ → Except PyErr (Option (List ℚ))
  GroundStateEnergy : Except PyErr (Option ℚ)

/-- The base class `Potential` itself: both method bodies are empty
(docstring only), so invoking them returns Python's `None` — they raise
nothing. -/
def Potential.base : Potential where
  GetPotential := fun _ => Except.ok none
  GroundStateEnergy := Except.ok none

/-- `FreeParticle`: `GetPotential` returns `np.zeros_like(x)` and
`GroundStateEnergy` returns `momentum**2 / (2.0 * mass)`. -/
def FreeParticle (mass momentum : ℚ) : Potential where
  GetPotential := fun x => Except.ok (some (x.map (fun _ => 0)))
  GroundStateEnergy := Except.ok (some (momentum ^ 2 / (2 * mass)))

/-- IEEE-style value for the one claim (C9) where numpy's non-finite
results are observable. -/
inductive PyFloat where
  | finite (q : ℚ)
  | posInf
  | negInf
  | nan
  deriving DecidableEq, Repr

/-- A `PyFloat` is finite exactly when it carries a rational value. -/
def PyFloat.isFinite : PyFloat → Bool
  | PyFloat.finite _ => true
  | _ => false

/-- numpy's `-1/r` on one float, under numpy's default error state
(divide-by-zero warns and yields `-inf`, it does not raise):
`-1/0.0 = -inf`, `-1/±inf = ∓0 = 0`, `-1/nan = nan`. -/
def npNegRecip : PyFloat → PyFloat
  | PyFloat.finite q => if q = 0 then PyFloat.negInf else PyFloat.finite (-(1 / q))
  | PyFloat.posInf => PyFloat.finite 0
  | PyFloat.negInf => PyFloat.finite 0
  | PyFloat.nan => PyFloat.nan

/-- `CoulombPotential.GetPotential(r)`: the body is `return -1/r`, an
unguarded elementwise division over the grid — no check, no raise. -/
def CoulombPotential.GetPotential (r : List PyFloat) : List PyFloat :=
  r.map npNegRecip

/-- Instance state of `Hamiltonian` (`HMatNew.py`).  `__init__` stores the
potential, `V = potential.GetPotential(x)` (possibly `None`),
`EMax = potential.GroundStateEnergy()` and the grid `x`; the three
diagonal attributes do not exist until `solve` assigns them, hence
`Option`. -/
structure HamiltonianState where
  potential : Potential
  V : Option (List ℚ)
  EMax : Option ℚ
  x : List ℚ
  upperDiag : Option (List ℚ)
  mainDiag : Option (List ℚ)
  lowerDiag : Option (List ℚ)

/-- `Hamiltonian.__init__(potential, x)`: evaluates the potential and the
ground-state energy once and stores them together with the grid. -/
def Hamiltonian.init (potential : Potential) (x : List ℚ) :
    Except PyErr HamiltonianState :=
  match potential.GetPotential x with
  | Except.error e => Except.error e
  | Except.ok V =>
    match potential.GroundStateEnergy with
    | Except.error e => Except.error e
    | Except.ok EMax =>
      Except.ok { potential := potential, V := V, EMax := EMax, x := x,
                  upperDiag := none, mainDiag := none, lowerDiag := none }

/-- Scalar-plus-array broadcasting `c + v` (numpy): elementwise, never
raises; `c + None` raises `TypeError`. -/
def npScalarAdd (c : ℚ) : Option (List ℚ) → Except PyErr (List ℚ)
  | none => Except.error PyErr.typeError
  | some v => Except.ok (v.map (fun vi => c + vi))

/-- `Hamiltonian.solve(self)`, parametric in the external eigensolver
`eigh` standing for `scipy.linalg.eigh_tridiagonal` (not repository code;
theorems that depend on its behaviour assume its documented contract —
ascending eigenvalues, one per row of the tridiagonal matrix — as
hypotheses).  Computes `deltaX = x[1] - x[0]`, `alpha = 1/(2*deltaX**2)`,
assigns `upperDiag = np.full(len(x)-1, -alpha)`,
`mainDiag = 2*alpha + V`, `lowerDiag = np.full(len(x)-1, -alpha)`, then
returns `eigh(mainDiag, upperDiag)`. -/
def Hamiltonian.solve (eigh : List ℚ → List ℚ → List ℚ × List (List ℚ))
    (s : HamiltonianState) :
    Except PyErr (HamiltonianState × (List ℚ × List (List ℚ))) :=
  match pyIndex s.x 1 with
  | Except.error e => Except.error e
  | Except.ok x1 =>
    match pyIndex s.x 0 with
    | Except.error e => Except.error e
    | Except.ok x0 =>
      let deltaX := x1 - x0
      let alpha := 1 / (2 * deltaX ^ 2)
      let upperDiag := List.replicate (s.x.length - 1) (-alpha)
      match npScalarAdd (2 * alpha) s.V with
      | Except.error e => Except.error e
      | Except.ok mainDiag =>
        let lowerDiag := List.replicate (s.x.length - 1) (-alpha)
        let s' : HamiltonianState :=
          { s with upperDiag := some upperDiag, mainDiag := some mainDiag,
                   lowerDiag := some lowerDiag }
        Except.ok (s', eigh mainDiag upperDiag)

/-- Instance state of `RadialHamiltonian`.  `V` is the stored effective
potential (its construction already raised if the potential returned
`None` or the shapes did not broadcast, so here it is a plain array). -/
structure RadialHamiltonianState where
  potential : Potential
  l : ℚ
  r : List ℚ
  V : List ℚ
  upperDiag : Option (List ℚ)
  mainDiag : Option (List ℚ)
  lowerDiag : Option (List ℚ)

/-- `RadialHamiltonian.__init__(potential, r, l=0)`:
`assert l >= 0`; store `r`, then replace it by `r[1:]` when
`np.isclose(r[0], 0.0)`; finally
`self.V = potential.GetPotential(r) + l*(l+1)/(2*self.r**2)` — note the
source passes the ORIGINAL `r` to `GetPotential` while the centrifugal
term uses the possibly trimmed `self.r`, and the two are combined by
numpy broadcasting addition. -/
def RadialHamiltonian.init (potential : Potential) (r : List ℚ) (l : ℚ) :
    Except PyErr RadialHamiltonianState :=
  if l < 0 then Except.error PyErr.assertionError
  else
    match pyIndex r 0 with
    | Except.error e => Except.error e
    | Except.ok r0 =>
      let selfR := if npIsCloseZero r0 then r.drop 1 else r
      match potential.GetPotential r with
      | Except.error e => Except.error e
      | Except.ok none => Except.error PyErr.typeError
      | Except.ok (some varr) =>
        let centrifugal := selfR.map (fun ri => l * (l + 1) / (2 * ri ^ 2))
        match npAdd varr centrifugal with
        | Except.error e => Except.error e
        | Except.ok V =>
          Except.ok { potential := potential, l := l, r := selfR, V := V,
                      upperDiag := none, mainDiag := none, lowerDiag := none }

/-- `RadialHamiltonian.solve(self)`: identical structure to
`Hamiltonian.solve` on the stored radial grid `r` and effective potential
`V`. -/
def RadialHamiltonian.solve
    (eigh : List ℚ → List ℚ → List ℚ × List (List ℚ))
    (s : RadialHamiltonianState) :
    Except PyErr (RadialHamiltonianState × (List ℚ × List (List ℚ))) :=
  match pyIndex s.r 1 with
  | Except.error e => Except.error e
  | Except.ok r1 =>
    match pyIndex s.r 0 with
    | Except.error e => Except.error e
    | Except.ok r0 =>
      let deltaR := r1 - r0
      let alpha := 1 / (2 * deltaR ^ 2)
      let upperDiag := List.replicate (s.r.length - 1) (-alpha)
      let mainDiag := s.V.map (fun vi => 2 * alpha + vi)
      let lowerDiag := List.replicate (s.r.length - 1) (-alpha)
      let s' : RadialHamiltonianState :=
        { s with upperDiag := some upperDiag, mainDiag := some mainDiag,
                 lowerDiag := some lowerDiag }
      Except.ok (s', eigh mainDiag upperDiag)

/-- A trivially conforming eigensolver used only to instantiate
solver-parametric theorems at concrete inputs: it returns one zero
eigenvalue per main-diagonal entry. -/
def trivialEigh : List ℚ → List ℚ → List ℚ × List (List ℚ) :=
  fun d _ => (List.replicate d.length 0, [])

/-- The spacing `deltaX = x[1] - x[0]` that `Hamiltonian.solve` computes,
read off the stored grid (defaults are irrelevant once the grid has at
least two points). -/
def hamDeltaX (s : HamiltonianState) : ℚ :=
  s.x.getD 1 0 - s.x.getD 0 0

/-- The stencil coefficient `alpha = 1 / (2 * deltaX**2)` of
`Hamiltonian.solve`. -/
def hamAlpha (s : HamiltonianState) : ℚ :=
  1 / (2 * hamDeltaX s ^ 2)

/-- The instance produced by `Hamiltonian(Potential(), np.array([5.0]))`:
a one-point grid, with `V` and `EMax` both `None` because the base class
methods return `None`. -/
def singlePointHam : HamiltonianState :=
  { potential := Potential.base, V := none, EMax := none, x := [5],
    upperDiag := none, mainDiag := none, lowerDiag := none }

/-- The instance produced by
`Hamiltonian(FreeParticle(1, 1), np.array([0.0, 1.0]))`. -/
def twoPointHam : HamiltonianState :=
  { potential := FreeParticle 1 1, V := some [0, 0],
    EMax := some ((1 : ℚ) ^ 2 / (2 * 1)), x := [0, 1],
    upperDiag := none, mainDiag := none, lowerDiag := none }

/-- `twoPointHam` after `solve` has assigned its three diagonals
(`deltaX = 1`, `alpha = 1/2`). -/
def twoPointSolved : HamiltonianState :=
  { twoPointHam with
      upperDiag := some [-(1 / 2)], mainDiag := some [1, 1],
      lowerDiag := some [-(1 / 2)] }

/-- The instance produced by
`RadialHamiltonian(FreeParticle(1, 1), np.array([1.0, 2.0]), 0)`:
first point nonzero, so the grid is kept whole; the centrifugal term is
zero for `l = 0`. -/
def twoPointRad : RadialHamiltonianState :=
  { potential := FreeParticle 1 1, l := 0, r := [1, 2], V := [0, 0],
    upperDiag := none, mainDiag := none, lowerDiag := none }

/-- `pyIndex` returns the indexed element when the index is in bounds. -/
theorem pyIndex_of_get?_eq_some (xs : List ℚ) (i : Nat) (v : ℚ)
    (h : xs.get? i = some v) : pyIndex xs i = Except.ok v := by
  unfold pyIndex
  rw [h]

/-- `pyIndex` raises `IndexError` when the index is out of bounds. -/
theorem pyIndex_of_get?_eq_none (xs : List ℚ) (i : Nat)
    (h : xs.get? i = none) : pyIndex xs i = Except.error PyErr.indexError := by
  unfold pyIndex
  rw [h]

/-- The only error `npAdd` can raise is the broadcasting `ValueError`. -/
theorem npAdd_error_eq (a b : List ℚ) (e : PyErr)
    (h : npAdd a b = Except.error e) : e = PyErr.valueError := by
  unfold npAdd at h
  split_ifs at h
  simp_all

/-- C1: the claim says the stored effective potential equals
`potential.evaluate` on the TRIMMED working grid plus the centrifugal term
on that same grid.  The source instead evaluates the potential on the
untrimmed grid (`potential.GetPotential(r)` with the original `r`), so on
a grid whose origin gets trimmed the two arrays have different lengths and
the constructor raises a broadcasting `ValueError` instead of storing the
claimed effective potential: at `FreeParticle(1, 1)`, `r = [0, 1, 3]`,
`l = 1` construction raises. -/
theorem radial_effective_potential_untrimmed_eval_raises :
    RadialHamiltonian.init (FreeParticle 1 1) [0, 1, 3] 1 =
      Except.error PyErr.valueError := by
  norm_num [RadialHamiltonian.init, pyIndex, npIsCloseZero, npAdd, FreeParticle]

/-- C2: the claim says construction succeeds on any grid of length
`N ≥ 2` whose first point is exactly `0.0`, dropping that point.  In the
source the working grid is indeed set to the tail, but the effective
potential then adds `GetPotential` of the length-`N` untrimmed grid to the
length-`N−1` centrifugal array, so for `N ≥ 3` the constructor raises a
broadcasting `ValueError` and no instance is produced: at
`FreeParticle(1, 1)`, `r = [0, 1, 2]`, `l = 0` construction raises. -/
theorem radial_init_zero_origin_raises_broadcast_error :
    RadialHamiltonian.init (FreeParticle 1 1) [0, 1, 2] 0 =
      Except.error PyErr.valueError := by
  norm_num [RadialHamiltonian.init, pyIndex, npIsCloseZero, npAdd, FreeParticle]

/-- C5 counterexample: invoked through the base class, `GetPotential` (on
the concrete grid `[1]`) and `GroundStateEnergy` do NOT fail fast with an
"unimplemented capability" error: both return Python's `None`. -/
theorem base_potential_silently_returns_none :
    Potential.base.GetPotential [1] = Except.ok none ∧
    Potential.base.GroundStateEnergy = Except.ok none :=
  ⟨rfl, rfl⟩

/-- C5 amended: for every grid, invoking `GetPotential` or
`GroundStateEnergy` through the base `Potential` contract without a
concrete overriding variant silently returns `None`; no
"unimplemented capability" (or any other) error is raised. -/
theorem base_potential_methods_return_none (grid : List ℚ) :
    Potential.base.GetPotential grid = Except.ok none ∧
    Potential.base.GroundStateEnergy = Except.ok none :=
  ⟨rfl, rfl⟩

/-- C9: on any grid containing a point equal to `0`,
`CoulombPotential.GetPotential` performs the division `-1/r` unguarded:
it is a total elementwise map (no error is raised), preserves the grid
length, and the entry at the zero point is `-inf`, a non-finite value. -/
theorem coulomb_get_potential_unguarded_at_zero (r : List PyFloat) (i : Nat)
    (h : r.get? i = some (PyFloat.finite 0)) :
    (CoulombPotential.GetPotential r).get? i = some PyFloat.negInf ∧
    PyFloat.isFinite PyFloat.negInf = false ∧
    (CoulombPotential.GetPotential r).length = r.length := by
  refine ⟨?_, rfl, by simp [CoulombPotential.GetPotential]⟩
  rw [List.get?_eq_getElem?] at h ⊢
  simp [CoulombPotential.GetPotential, List.getElem?_map, h, npNegRecip]

/-- C9 witness: the radial grid `[0, 1]` contains `0` at index `0`, and
the Coulomb potential evaluates there to the non-finite `-inf`. -/
theorem coulomb_get_potential_unguarded_at_zero_witness :
    [PyFloat.finite 0, PyFloat.finite 1].get? 0 = some (PyFloat.finite 0) ∧
    ((CoulombPotential.GetPotential [PyFloat.finite 0, PyFloat.finite 1]).get? 0 =
        some PyFloat.negInf ∧
      PyFloat.isFinite PyFloat.negInf = false ∧
      (CoulombPotential.GetPotential
          [PyFloat.finite 0, PyFloat.finite 1]).length =
        [PyFloat.finite 0, PyFloat.finite 1].length) :=
  ⟨rfl, coulomb_get_potential_unguarded_at_zero _ 0 rfl⟩

/-- Helper: for nonnegative `l` the radial constructor never raises
`AssertionError` (whatever else it may raise), provided the injected
potential does not itself raise that error when evaluated. -/
theorem radial_init_no_assertion_of_nonneg (p : Potential) (r : List ℚ)
    (l : ℚ) (hp : p.GetPotential r ≠ Except.error PyErr.assertionError)
    (hl : ¬l < 0) :
    RadialHamiltonian.init p r l ≠ Except.error PyErr.assertionError := by
  unfold RadialHamiltonian.init
  rw [if_neg hl]
  split
  next e heq =>
    intro hc
    injection hc with h'
    unfold pyIndex at heq
    cases hg : r.get? 0 <;> rw [hg] at heq <;> simp_all
  next r0 heq =>
    split <;>
    · split
      next e heq2 =>
        intro hc
        injection hc with h'
        exact hp (h' ▸ heq2)
      next heq2 => simp
      next varr heq2 =>
        dsimp only
        split
        next e heq3 =>
          intro hc
          injection hc with h'
          have hv := npAdd_error_eq _ _ _ heq3
          rw [h'] at hv
          exact PyErr.noConfusion hv
        next V heq3 => simp

/-- C6: constructing a `RadialHamiltonian` raises the `l >= 0` domain
check's `AssertionError` exactly when `l < 0` (for any grid, and any
potential whose evaluation does not itself raise that error); in
particular a construction with `l ≥ 0` is never rejected on account of
`l`. -/
theorem radial_init_negative_l_domain_check (p : Potential) (r : List ℚ)
    (l : ℚ) (hp : p.GetPotential r ≠ Except.error PyErr.assertionError) :
    (RadialHamiltonian.init p r l = Except.error PyErr.assertionError) ↔
      l < 0 := by
  constructor
  · intro h
    by_contra hl
    exact radial_init_no_assertion_of_nonneg p r l hp hl h
  · intro hl
    unfold RadialHamiltonian.init
    rw [if_pos hl]

/-- C6 witness: `FreeParticle(1, 1)` raises nothing on the grid `[1, 2]`,
and there construction raises the domain check's `AssertionError` exactly
for negative `l`, e.g. `l = -1`. -/
theorem radial_init_negative_l_domain_check_witness :
    (FreeParticle 1 1).GetPotential [1, 2] ≠
        Except.error PyErr.assertionError ∧
    ((RadialHamiltonian.init (FreeParticle 1 1) [1, 2] (-1) =
        Except.error PyErr.assertionError) ↔ (-1 : ℚ) < 0) :=
  ⟨by simp [FreeParticle],
   radial_init_negative_l_domain_check _ _ _ (by simp [FreeParticle])⟩

/-- C4 counterexample: `Hamiltonian(Potential(), [5.0])` is constructed
without any rejection, and `solve` on the resulting one-point instance
fails with `IndexError` raised AT the `deltaX = x[1] - x[0]` computation —
not with the "invalid grid" rejection before that computation which the
claim requires. -/
theorem ham_short_grid_no_invalid_grid_rejection :
    Hamiltonian.init Potential.base [5] = Except.ok singlePointHam ∧
    Hamiltonian.solve trivialEigh singlePointHam =
      Except.error PyErr.indexError ∧
    PyErr.indexError ≠ PyErr.invalidGrid :=
  ⟨rfl, rfl, by decide⟩

/-- C4 amended: for every Hamiltonian instance whose grid has fewer than
two points, `solve` is not rejected beforehand; it raises `IndexError`
when the `deltaX = x[1] - x[0]` computation indexes the grid. -/
theorem ham_solve_short_grid_index_error
    (eigh : List ℚ → List ℚ → List ℚ × List (List ℚ))
    (s : HamiltonianState) (h : s.x.length < 2) :
    Hamiltonian.solve eigh s = Except.error PyErr.indexError := by
  unfold Hamiltonian.solve
  have h1 : s.x.get? 1 = none := by
    rw [List.get?_eq_none]
    omega
  rw [pyIndex_of_get?_eq_none _ _ h1]

/-- C4 witness: the one-point instance has grid length `1 < 2` and its
`solve` raises `IndexError`. -/
theorem ham_solve_short_grid_index_error_witness :
    singlePointHam.x.length < 2 ∧
    Hamiltonian.solve trivialEigh singlePointHam =
      Except.error PyErr.indexError :=
  ⟨by simp [singlePointHam],
   ham_solve_short_grid_index_error trivialEigh singlePointHam
     (by simp [singlePointHam])⟩

/-- C3: on any instance whose stored value array is `v` and whose grid has
at least two points (with `v` of the grid's length), `Hamiltonian.solve`
succeeds and assigns a main diagonal elementwise equal to
`2 * alpha + v` and constant upper and lower off-diagonals of length
`N - 1` with every entry `-alpha`, where `alpha = 1/(2 * deltaX ** 2)` and
`deltaX = x[1] - x[0]` (`hamAlpha` and `hamDeltaX`). -/
theorem ham_solve_builds_tridiagonal
    (eigh : List ℚ → List ℚ → List ℚ × List (List ℚ))
    (s : HamiltonianState) (v : List ℚ) (hV : s.V = some v)
    (_hvlen : v.length = s.x.length) (h2 : 2 ≤ s.x.length) :
    ∃ s' out, Hamiltonian.solve eigh s = Except.ok (s', out) ∧
      s'.mainDiag = some (v.map (fun vi => 2 * hamAlpha s + vi)) ∧
      s'.upperDiag = some (List.replicate (s.x.length - 1) (-hamAlpha s)) ∧
      s'.lowerDiag = some (List.replicate (s.x.length - 1) (-hamAlpha s)) := by
  have h1 : s.x.get? 1 = some (s.x.get ⟨1, by omega⟩) :=
    List.get?_eq_get (by omega)
  have h0 : s.x.get? 0 = some (s.x.get ⟨0, by omega⟩) :=
    List.get?_eq_get (by omega)
  have hd1 : s.x.getD 1 0 = s.x.get ⟨1, by omega⟩ := by
    simp [List.getD_eq_getElem?_getD, ← List.get?_eq_getElem?, h1]
  have hd0 : s.x.getD 0 0 = s.x.get ⟨0, by omega⟩ := by
    simp [List.getD_eq_getElem?_getD, ← List.get?_eq_getElem?, h0]
  have halpha : hamAlpha s =
      1 / (2 * (s.x.get ⟨1, by omega⟩ - s.x.get ⟨0, by omega⟩) ^ 2) := by
    unfold hamAlpha hamDeltaX
    rw [hd1, hd0]
  unfold Hamiltonian.solve
  rw [pyIndex_of_get?_eq_some _ _ _ h1, pyIndex_of_get?_eq_some _ _ _ h0, hV]
  refine ⟨_, _, rfl, ?_, ?_, ?_⟩ <;> simp [npScalarAdd, halpha]

/-- C3 witness: at `Hamiltonian(FreeParticle(1, 1), [0.0, 1.0])` (stored
value array `[0, 0]`, grid length `2`) the solve call assigns the claimed
diagonals. -/
theorem ham_solve_builds_tridiagonal_witness :
    twoPointHam.V = some [0, 0] ∧
    ([0, 0] : List ℚ).length = twoPointHam.x.length ∧
    2 ≤ twoPointHam.x.length ∧
    (∃ s' out,
      Hamiltonian.solve trivialEigh twoPointHam = Except.ok (s', out) ∧
      s'.mainDiag =
        some (([0, 0] : List ℚ).map (fun vi => 2 * hamAlpha twoPointHam + vi)) ∧
      s'.upperDiag =
        some (List.replicate (twoPointHam.x.length - 1) (-hamAlpha twoPointHam)) ∧
      s'.lowerDiag =
        some (List.replicate (twoPointHam.x.length - 1) (-hamAlpha twoPointHam))) :=
  ⟨rfl, rfl, by norm_num [twoPointHam],
   ham_solve_builds_tridiagonal trivialEigh twoPointHam [0, 0] rfl rfl
     (by norm_num [twoPointHam])⟩

/-- A constant list is sorted by the reflexive order `≤`. -/
theorem sorted_le_replicate (n : Nat) (a : ℚ) :
    (List.replicate n a).Sorted (· ≤ ·) := by
  induction n with
  | zero => simp
  | succ n ih =>
    rw [List.replicate_succ, List.sorted_cons]
    exact ⟨fun b hb => le_of_eq (List.eq_of_mem_replicate hb).symm, ih⟩

/-- C7: for any eigensolver obeying the documented `eigh_tridiagonal`
contract (one eigenvalue per main-diagonal entry, returned in ascending
order), every successful `solve` — Cartesian or radial — returns exactly
as many eigenvalues as the instance's grid has points, and the eigenvalue
sequence is non-decreasing.  The value-array length premises are the
"accepted grid and potential" condition: the stored `V` matches the
grid. -/
theorem solve_spectrum_length_and_sorted
    (eigh : List ℚ → List ℚ → List ℚ × List (List ℚ))
    (hlen : ∀ d e, (eigh d e).1.length = d.length)
    (hsort : ∀ d e, ((eigh d e).1).Sorted (· ≤ ·)) :
    (∀ (s s' : HamiltonianState) (v w : List ℚ) (vecs : List (List ℚ)),
        s.V = some v → v.length = s.x.length →
        Hamiltonian.solve eigh s = Except.ok (s', (w, vecs)) →
        w.length = s.x.length ∧ w.Sorted (· ≤ ·)) ∧
    (∀ (s s' : RadialHamiltonianState) (w : List ℚ) (vecs : List (List ℚ)),
        s.V.length = s.r.length →
        RadialHamiltonian.solve eigh s = Except.ok (s', (w, vecs)) →
        w.length = s.r.length ∧ w.Sorted (· ≤ ·)) := by
  constructor
  · intro s s' v w vecs hV hvlen hsolve
    unfold Hamiltonian.solve at hsolve
    split at hsolve
    · exact Except.noConfusion hsolve
    next x1 heq1 =>
      split at hsolve
      · exact Except.noConfusion hsolve
      next x0 heq0 =>
        rw [hV] at hsolve
        simp only [npScalarAdd] at hsolve
        injection hsolve with h
        injection h with h1 h2
        have hw := congrArg Prod.fst h2
        dsimp only at hw
        constructor
        · rw [← hw, hlen]
          simpa using hvlen
        · rw [← hw]
          exact hsort _ _
  · intro s s' w vecs hvlen hsolve
    unfold RadialHamiltonian.solve at hsolve
    split at hsolve
    · exact Except.noConfusion hsolve
    next r1 heq1 =>
      split at hsolve
      · exact Except.noConfusion hsolve
      next r0 heq0 =>
        injection hsolve with h
        injection h with h1 h2
        have hw := congrArg Prod.fst h2
        dsimp only at hw
        constructor
        · rw [← hw, hlen]
          simpa using hvlen
        · rw [← hw]
          exact hsort _ _

/-- C7 witness: the conforming solver `trivialEigh` and the concrete
instance `Hamiltonian(FreeParticle(1, 1), [0.0, 1.0])`, whose solve call
returns the two sorted eigenvalues `[0, 0]`. -/
theorem solve_spectrum_length_and_sorted_witness :
    (∀ d e, (trivialEigh d e).1.length = d.length) ∧
    (∀ d e, ((trivialEigh d e).1).Sorted (· ≤ ·)) ∧
    twoPointHam.V = some [0, 0] ∧
    ([0, 0] : List ℚ).length = twoPointHam.x.length ∧
    Hamiltonian.solve trivialEigh twoPointHam =
      Except.ok (twoPointSolved, ([0, 0], [])) ∧
    (([0, 0] : List ℚ).length = twoPointHam.x.length ∧
      ([0, 0] : List ℚ).Sorted (· ≤ ·)) := by
  have hlen : ∀ d e, (trivialEigh d e).1.length = d.length := by
    intro d e
    simp [trivialEigh]
  have hsort : ∀ d e, ((trivialEigh d e).1).Sorted (· ≤ ·) := by
    intro d e
    exact sorted_le_replicate _ _
  have hsolve : Hamiltonian.solve trivialEigh twoPointHam =
      Except.ok (twoPointSolved, ([0, 0], [])) := by
    norm_num [Hamiltonian.solve, pyIndex, npScalarAdd, twoPointHam,
      twoPointSolved, trivialEigh, List.replicate]
  exact ⟨hlen, hsort, rfl, rfl, hsolve,
    (solve_spectrum_length_and_sorted trivialEigh hlen hsort).1 twoPointHam
      twoPointSolved [0, 0] [0, 0] [] rfl rfl hsolve⟩

/-- Helper: a successful Cartesian `solve` carries over every field of the
instance other than the three diagonals it assigns. -/
theorem ham_solve_ok_frame (eigh : List ℚ → List ℚ → List ℚ × List (List ℚ))
    (s s' : HamiltonianState) (out : List ℚ × List (List ℚ))
    (h : Hamiltonian.solve eigh s = Except.ok (s', out)) :
    s'.potential = s.potential ∧ s'.V = s.V ∧ s'.EMax = s.EMax ∧
      s'.x = s.x := by
  unfold Hamiltonian.solve at h
  split at h
  · exact Except.noConfusion h
  next x1 heq1 =>
    split at h
    · exact Except.noConfusion h
    next x0 heq0 =>
      dsimp only at h
      split at h
      · exact Except.noConfusion h
      next mainDiag heqm =>
        injection h with h'
        injection h' with h1 h2
        rw [← h1]
        exact ⟨rfl, rfl, rfl, rfl⟩

/-- Helper: a successful radial `solve` carries over every field of the
instance other than the three diagonals it assigns. -/
theorem rad_solve_ok_frame (eigh : List ℚ → List ℚ → List ℚ × List (List ℚ))
    (s s' : RadialHamiltonianState) (out : List ℚ × List (List ℚ))
    (h : RadialHamiltonian.solve eigh s = Except.ok (s', out)) :
    s'.potential = s.potential ∧ s'.l = s.l ∧ s'.r = s.r ∧ s'.V = s.V := by
  unfold RadialHamiltonian.solve at h
  split at h
  · exact Except.noConfusion h
  next r1 heq1 =>
    split at h
    · exact Except.noConfusion h
    next r0 heq0 =>
      dsimp only at h
      injection h with h'
      injection h' with h1 h2
      rw [← h1]
      exact ⟨rfl, rfl, rfl, rfl⟩

/-- Helper: the returned pair of a Cartesian `solve` only depends on the
grid and value-array fields of the instance. -/
theorem ham_solve_map_snd_congr
    (eigh : List ℚ → List ℚ → List ℚ × List (List ℚ))
    (s t : HamiltonianState) (hx : t.x = s.x) (hV : t.V = s.V) :
    Except.map Prod.snd (Hamiltonian.solve eigh t) =
      Except.map Prod.snd (Hamiltonian.solve eigh s) := by
  unfold Hamiltonian.solve
  rw [hx, hV]
  cases pyIndex s.x 1 with
  | error e => rfl
  | ok x1 =>
    cases pyIndex s.x 0 with
    | error e => rfl
    | ok x0 =>
      dsimp only
      cases npScalarAdd (2 * (1 / (2 * (x1 - x0) ^ 2))) s.V with
      | error e => rfl
      | ok mainDiag => rfl

/-- Helper: the returned pair of a radial `solve` only depends on the grid
and value-array fields of the instance. -/
theorem rad_solve_map_snd_congr
    (eigh : List ℚ → List ℚ → List ℚ × List (List ℚ))
    (s t : RadialHamiltonianState) (hr : t.r = s.r) (hV : t.V = s.V) :
    Except.map Prod.snd (RadialHamiltonian.solve eigh t) =
      Except.map Prod.snd (RadialHamiltonian.solve eigh s) := by
  unfold RadialHamiltonian.solve
  rw [hr, hV]
  cases pyIndex s.r 1 with
  | error e => rfl
  | ok r1 =>
    cases pyIndex s.r 0 with
    | error e => rfl
    | ok r0 => rfl

/-- C8: two successive `solve()` calls on the same unmodified instance —
the second call acting on the state the first one returned — produce
identical eigenvalue/eigenvector pairs (exact equality, which in
particular is equality up to per-column sign), for Cartesian and radial
Hamiltonians alike. -/
theorem solve_twice_identical
    (eigh : List ℚ → List ℚ → List ℚ × List (List ℚ)) :
    (∀ (s s1 s2 : HamiltonianState) (out1 out2 : List ℚ × List (List ℚ)),
        Hamiltonian.solve eigh s = Except.ok (s1, out1) →
        Hamiltonian.solve eigh s1 = Except.ok (s2, out2) →
        out1 = out2) ∧
    (∀ (s s1 s2 : RadialHamiltonianState)
        (out1 out2 : List ℚ × List (List ℚ)),
        RadialHamiltonian.solve eigh s = Except.ok (s1, out1) →
        RadialHamiltonian.solve eigh s1 = Except.ok (s2, out2) →
        out1 = out2) := by
  constructor
  · intro s s1 s2 out1 out2 h1 h2
    obtain ⟨-, hV, -, hx⟩ := ham_solve_ok_frame eigh s s1 out1 h1
    have hcong := ham_solve_map_snd_congr eigh s s1 hx hV
    rw [h1, h2] at hcong
    simp only [Except.map] at hcong
    injection hcong with h
    exact h.symm
  · intro s s1 s2 out1 out2 h1 h2
    obtain ⟨-, -, hr, hV⟩ := rad_solve_ok_frame eigh s s1 out1 h1
    have hcong := rad_solve_map_snd_congr eigh s s1 hr hV
    rw [h1, h2] at hcong
    simp only [Except.map] at hcong
    injection hcong with h
    exact h.symm

/-- C8 witness: on `Hamiltonian(FreeParticle(1, 1), [0.0, 1.0])` the first
`solve` call returns `([0, 0], [])` leaving state `twoPointSolved`, the
second call on that state returns the same pair, and the two outputs are
identical. -/
theorem solve_twice_identical_witness :
    Hamiltonian.solve trivialEigh twoPointHam =
      Except.ok (twoPointSolved, ([0, 0], [])) ∧
    Hamiltonian.solve trivialEigh twoPointSolved =
      Except.ok (twoPointSolved, ([0, 0], [])) ∧
    (([0, 0], []) : List ℚ × List (List ℚ)) = (([0, 0], []) : _) := by
  have hA : Hamiltonian.solve trivialEigh twoPointHam =
      Except.ok (twoPointSolved, ([0, 0], [])) := by
    norm_num [Hamiltonian.solve, pyIndex, npScalarAdd, twoPointHam,
      twoPointSolved, trivialEigh, List.replicate]
  have hB : Hamiltonian.solve trivialEigh twoPointSolved =
      Except.ok (twoPointSolved, ([0, 0], [])) := by
    norm_num [Hamiltonian.solve, pyIndex, npScalarAdd, twoPointHam,
      twoPointSolved, trivialEigh, List.replicate]
  exact ⟨hA, hB,
    (solve_twice_identical trivialEigh).1 twoPointHam twoPointSolved
      twoPointSolved _ _ hA hB⟩

/-- C10: a successful `solve()` leaves the stored grid (`x` resp. `r`),
the stored value array `V`, the injected potential object, and (for the
Cartesian instance) `EMax`, resp. (for the radial instance) `l`,
unchanged: the only instance fields it rewrites are `upperDiag`,
`mainDiag` and `lowerDiag`. -/
theorem solve_writes_only_diagonals
    (eigh : List ℚ → List ℚ → List ℚ × List (List ℚ)) :
    (∀ (s s' : HamiltonianState) (out : List ℚ × List (List ℚ)),
        Hamiltonian.solve eigh s = Except.ok (s', out) →
        s'.potential = s.potential ∧ s'.V = s.V ∧ s'.EMax = s.EMax ∧
          s'.x = s.x) ∧
    (∀ (s s' : RadialHamiltonianState) (out : List ℚ × List (List ℚ)),
        RadialHamiltonian.solve eigh s = Except.ok (s', out) →
        s'.potential = s.potential ∧ s'.l = s.l ∧ s'.r = s.r ∧
          s'.V = s.V) :=
  ⟨fun s s' out h => ham_solve_ok_frame eigh s s' out h,
   fun s s' out h => rad_solve_ok_frame eigh s s' out h⟩

/-- C10 witness: the radial instance
`RadialHamiltonian(FreeParticle(1, 1), [1.0, 2.0], 0)` solves to
eigenvalues `[0, 0]` (with the conforming solver `trivialEigh`) and keeps
its potential, `l`, grid and value array unchanged. -/
theorem solve_writes_only_diagonals_witness :
    RadialHamiltonian.solve trivialEigh twoPointRad =
      Except.ok ({ twoPointRad with
          upperDiag := some [-(1 / 2)], mainDiag := some [1, 1],
          lowerDiag := some [-(1 / 2)] }, ([0, 0], [])) ∧
    (({ twoPointRad with
          upperDiag := some [-(1 / 2)], mainDiag := some [1, 1],
          lowerDiag := some [-(1 / 2)] } : RadialHamiltonianState).potential =
        twoPointRad.potential ∧
      ({ twoPointRad with
          upperDiag := some [-(1 / 2)], mainDiag := some [1, 1],
          lowerDiag := some [-(1 / 2)] } : RadialHamiltonianState).l =
        twoPointRad.l ∧
      ({ twoPointRad with
          upperDiag := some [-(1 / 2)], mainDiag := some [1, 1],
          lowerDiag := some [-(1 / 2)] } : RadialHamiltonianState).r =
        twoPointRad.r ∧
      ({ twoPointRad with
          upperDiag := some [-(1 / 2)], mainDiag := some [1, 1],
          lowerDiag := some [-(1 / 2)] } : RadialHamiltonianState).V =
        twoPointRad.V) := by
  have hA : RadialHamiltonian.solve trivialEigh twoPointRad =
      Except.ok ({ twoPointRad with
          upperDiag := some [-(1 / 2)], mainDiag := some [1, 1],
          lowerDiag := some [-(1 / 2)] }, ([0, 0], [])) := by
    norm_num [RadialHamiltonian.solve, pyIndex, twoPointRad, trivialEigh,
      List.replicate]
  exact ⟨hA, (solve_writes_only_diagonals trivialEigh).2 twoPointRad _ _ hA⟩
